import Mathlib

/-!
OscarGoGo: feed parsing and cache-aware fetching.

A shallow embedding of `format/formatting.go` (`ParseFeed`, `parseRss`,
`parseAtom`, `AutoDetectFeedFormat`) and `requests/requests.go`
(`FetchWebsitesRss`, `fetchUrl`), followed by theorems about them.

Conventions of the embedding

* A Go slice is a `List`; the nil slice and the empty slice are both `[]`.
* A Go `error` result is an `Option GoError`; `none` is the nil error.
* A Go function that can stop in a run-time panic (an index out of range)
  returns an `Option`; `none` is the panic.
* Collaborators that live outside the two source files (the XML decoder,
  the two timestamp parsers, the cache store, the HTTP transport) are
  parameters of the definitions that call them.
* `log.Printf` calls write diagnostics only and are left out.
-/

namespace OscarGoGo

/-! ## Data model -/

/-- Raw bytes of a response body (`[]byte`), one number below 256 per byte. -/
abbrev Bytes := List Nat

/-- Modelled from the spec: the instant type `time.Time` of the feed and
entry timestamps, counted in seconds from the zero instant, so that the
zero value of the Go type is `0`. -/
abbrev Time := Int

/-- Go `error` values that reach `ParseFeed` and `FetchWebsitesRss`.
An error made by a library collaborator keeps the collaborator's message;
`errorsNew` is a value made by `errors.New` inside this package, which is
equal to no value made elsewhere. -/
inductive GoError where
  | xml (msg : String)
  | http (msg : String)
  | errorsNew (msg : String)
  deriving DecidableEq, Repr

/-- Modelled from the spec: the site config `config.Website`, with the
fields the two source files read. -/
structure Website where
  Id : Int
  Description : String
  FeedLink : String
  FeedName : String
  FeedFormat : String
  SiteLink : String
  SiteName : String
  deriving DecidableEq, Repr

/-- Modelled from the spec: one item of a raw RSS channel. -/
structure rssItem where
  Title : String
  Link : String
  Description : String
  PubDate : String
  deriving DecidableEq, Repr

/-- Modelled from the spec: the channel of a raw RSS document. -/
structure rssChannel where
  Title : String
  Description : String
  PubDate : String
  Items : List rssItem
  deriving DecidableEq, Repr

/-- Modelled from the spec: the raw RSS document `rssFormat`. -/
structure rssFormat where
  Channels : rssChannel
  deriving DecidableEq, Repr

/-- Modelled from the spec: one link element of a raw Atom entry; `Key` is
the address of the link. -/
structure atomLink where
  Key : String
  deriving DecidableEq, Repr

/-- Modelled from the spec: one entry of a raw Atom document. -/
structure atomEntry where
  Title : String
  Summary : String
  Content : String
  Updated : String
  Links : List atomLink
  deriving DecidableEq, Repr

/-- Modelled from the spec: the raw Atom document `atomFormat`. -/
structure atomFormat where
  Title : String
  Subtitle : String
  Updated : String
  Entries : List atomEntry
  deriving DecidableEq, Repr

/-- Modelled from the spec: one entry of a canonical feed. -/
structure feedEntry where
  Title : String
  Link : String
  Description : String
  CreationDate : Time
  UpdateDate : Time
  deriving DecidableEq, Repr

/-- Modelled from the spec: the canonical feed `FeedFormat`. -/
structure FeedFormat where
  Id : Int
  Title : String
  Link : String
  Description : String
  UpdateDate : Time
  Entries : List feedEntry
  deriving DecidableEq, Repr

/-- The zero value `FeedFormat{}`. -/
def FeedFormat.zero : FeedFormat :=
  { Id := 0, Title := "", Link := "", Description := "", UpdateDate := 0,
    Entries := [] }

/-- Collaborators of the `format` package that are not in `formatting.go`.
`unmarshalRss raw` and `unmarshalAtom raw` stand for
`xml.Unmarshal(raw, &doc)` on a zero `doc`: they give the document as the
decoder left it (partly filled when it stopped on an error) and the error
of the decoder, `none` when it succeeded. `parseRssTime` and
`parseAtomTime` are the two timestamp parsers. -/
structure Env where
  unmarshalRss : Bytes → rssFormat × Option String
  unmarshalAtom : Bytes → atomFormat × Option String
  parseRssTime : String → Time
  parseAtomTime : String → Time

/-! ## `format/formatting.go` -/

/-- The entry appended for one RSS item (body of the loop of `parseRss`). -/
def rssEntry (env : Env) (item : rssItem) : feedEntry :=
  let date := env.parseRssTime item.PubDate
  { Title := item.Title, Link := item.Link, Description := item.Description,
    CreationDate := date, UpdateDate := date }

/-- Go `parseRss`: convert an `rssFormat` to a `FeedFormat`. -/
def parseRss (env : Env) (rssMap : rssFormat) (web : Website) : FeedFormat :=
  let feedTime := env.parseRssTime rssMap.Channels.PubDate
  let feed : FeedFormat :=
    { Id := web.Id, Title := rssMap.Channels.Title, Link := web.FeedLink,
      Description := rssMap.Channels.Description, UpdateDate := feedTime,
      Entries := [] }
  rssMap.Channels.Items.foldl
    (fun feed item => { feed with Entries := feed.Entries ++ [rssEntry env item] })
    feed

/-- The entry appended for one Atom entry (body of the loop of `parseAtom`).
`item.Links[0]` is an unguarded index: on an entry without a link element
the Go code panics, which is `none` here. -/
def atomEntryToFeedEntry (env : Env) (item : atomEntry) : Option feedEntry :=
  let date := env.parseAtomTime item.Updated
  let description := if item.Summary ≠ "" then item.Summary else item.Content
  match item.Links[0]? with
  | none => none
  | some link =>
    some { Title := item.Title, Link := link.Key, Description := description,
           CreationDate := date, UpdateDate := date }

/-- The loop of `parseAtom` over the entries, carrying the feed built so
far; it stops with `none` at the first entry on which the body panics. -/
def parseAtomLoop (env : Env) : List atomEntry → FeedFormat → Option FeedFormat
  | [], feed => some feed
  | item :: rest, feed =>
    match atomEntryToFeedEntry env item with
    | none => none
    | some e => parseAtomLoop env rest { feed with Entries := feed.Entries ++ [e] }

/-- Go `parseAtom`: convert an `atomFormat` to a `FeedFormat`. -/
def parseAtom (env : Env) (atomMap : atomFormat) (web : Website) : Option FeedFormat :=
  let feedTime := env.parseAtomTime atomMap.Updated
  let feed : FeedFormat :=
    { Id := web.Id, Title := atomMap.Title, Link := web.FeedLink,
      Description := atomMap.Subtitle, UpdateDate := feedTime, Entries := [] }
  parseAtomLoop env atomMap.Entries feed

/-- The error made by `errors.New` at the end of the autodetection branch. -/
def errDetect : GoError := GoError.errorsNew "Could not detect your feed format"

/-- Go `ParseFeed`. The result is `none` when the call panics, otherwise
the returned pair of feed and error. -/
def ParseFeed (env : Env) (raw : Bytes) (web : Website) :
    Option (FeedFormat × Option GoError) :=
  if web.FeedFormat = "rss" then
    let (xmlBody, err) := env.unmarshalRss raw
    match err with
    | some e => some (FeedFormat.zero, some (GoError.xml e))
    | none => some (parseRss env xmlBody web, none)
  else if web.FeedFormat = "atom" then
    let (xmlBody, err) := env.unmarshalAtom raw
    match err with
    | some e => some (FeedFormat.zero, some (GoError.xml e))
    | none => (parseAtom env xmlBody web).map (fun feedRes => (feedRes, none))
  else
    let (rssRaw, errRss) := env.unmarshalRss raw
    let (atomRaw, errAtom) := env.unmarshalAtom raw
    if errRss = none ∧ (rssRaw.Channels.Items.length > 0 ∨ rssRaw.Channels.Title ≠ "") then
      some (parseRss env rssRaw web, none)
    else if errAtom = none ∧ (atomRaw.Entries.length > 0 ∨ atomRaw.Title ≠ "") then
      (parseAtom env atomRaw web).map (fun ret => (ret, none))
    else
      match errRss, errAtom with
      | some e, _ => some (FeedFormat.zero, some (GoError.xml e))
      | none, some e => some (FeedFormat.zero, some (GoError.xml e))
      | none, none => some (FeedFormat.zero, some errDetect)

/-- Go `AutoDetectFeedFormat`: the detected format name and the error. -/
def AutoDetectFeedFormat (env : Env) (raw : Bytes) : String × Option GoError :=
  let (rssRaw, errRss) := env.unmarshalRss raw
  let (atomRaw, errAtom) := env.unmarshalAtom raw
  if errRss = none ∧ (rssRaw.Channels.Items.length > 0 ∨ rssRaw.Channels.Title ≠ "") then
    ("rss", none)
  else if errAtom = none ∧ (atomRaw.Entries.length > 0 ∨ atomRaw.Title ≠ "") then
    ("atom", none)
  else
    match errRss, errAtom with
    | some e, _ => ("", some (GoError.xml e))
    | none, some e => ("", some (GoError.xml e))
    | none, none => ("", some errDetect)

/-- The condition under which the autodetection branch classifies as RSS. -/
def rssDetected (env : Env) (raw : Bytes) : Prop :=
  (env.unmarshalRss raw).2 = none ∧
    ((env.unmarshalRss raw).1.Channels.Items.length > 0 ∨
      (env.unmarshalRss raw).1.Channels.Title ≠ "")

/-- The condition of the second test of the autodetection branch. -/
def atomDetected (env : Env) (raw : Bytes) : Prop :=
  (env.unmarshalAtom raw).2 = none ∧
    ((env.unmarshalAtom raw).1.Entries.length > 0 ∨ (env.unmarshalAtom raw).1.Title ≠ "")

instance (env : Env) (raw : Bytes) : Decidable (rssDetected env raw) :=
  inferInstanceAs (Decidable (_ ∧ _))

instance (env : Env) (raw : Bytes) : Decidable (atomDetected env raw) :=
  inferInstanceAs (Decidable (_ ∧ _))

/-! ## `requests/requests.go` -/

/-- Go `httpResponse`: the response `fetchUrl` sends on its channel. -/
structure httpResponse where
  err : Option GoError
  body : Bytes
  deriving DecidableEq, Repr

/-- What the HTTP transport does for one request: `getErr` is the error of
`http.Get` (`none` when a response arrived), `body` and `readErr` are the
two results of `ioutil.ReadAll` on the response body (`body` holds the bytes
read before the failure when `readErr` is an error). -/
structure HttpExchange where
  getErr : Option String
  body : Bytes
  readErr : Option String
  deriving DecidableEq, Repr

/-- Go `fetchUrl`: the one response sent on the channel `c` before it is
closed. The second test reads `err`, the error of `http.Get`, as the source
does. -/
def fetchUrl (httpGet : String → HttpExchange) (url : String) : httpResponse :=
  let x := httpGet url
  let err := x.getErr
  if err ≠ none then
    { err := err.map GoError.http, body := [] }
  else
    let body := x.body
    let errRead := x.readErr
    if err ≠ none then
      { err := errRead.map GoError.http, body := body }
    else
      { err := none, body := body }

/-- Modelled from the spec: the two operations of the cache store that
`FetchWebsitesRss` consumes, over a store of type `κ`. `GetCacheForId`
gives `some feed` for a present, fresh entry (nil error) and `none`
otherwise; `SetCacheForId` is the store after the upsert. -/
structure CacheOps (κ : Type) where
  GetCacheForId : κ → Int → Option FeedFormat
  SetCacheForId : κ → Int → FeedFormat → κ

/-- The variables `FetchWebsitesRss` and its closure mutate: the result
slice `res` and the store behind the `cache` pointer. -/
structure FetchState (κ : Type) where
  res : List FeedFormat
  cache : κ
  deriving DecidableEq

/-- The first loop of the closure `_fetch`: the addresses of the
`go fetchUrl(web.FeedLink, c[i])` calls, in launch order. -/
def launchRequests (webs : List Website) : List String :=
  webs.foldl (fun launched web => launched ++ [web.FeedLink]) []

/-- The second loop of the closure `_fetch`, from index `i` on. The
response read from `c[i]` is the one `fetchUrl` sent for the request with
index `i`; `transport i` is what the HTTP transport does for that request.
The result is `none` when `ParseFeed` panics. -/
def handleResponses {κ : Type} (env : Env) (ops : CacheOps κ)
    (transport : Nat → String → HttpExchange) :
    Nat → List Website → FetchState κ → Option (FetchState κ)
  | _, [], st => some st
  | i, web :: rest, st =>
    let response := fetchUrl (transport i) web.FeedLink
    if response.err ≠ none then
      handleResponses env ops transport (i + 1) rest st
    else
      match ParseFeed env response.body web with
      | none => none
      | some (feedRes, errParse) =>
        if errParse ≠ none then
          handleResponses env ops transport (i + 1) rest st
        else
          handleResponses env ops transport (i + 1) rest
            { res := st.res ++ [feedRes],
              cache := ops.SetCacheForId st.cache web.Id feedRes }

/-- What one call of `FetchWebsitesRss` does: the requests it launched and,
when it returns, the state at the return (`none` when it panicked). -/
structure FetchRun (κ : Type) where
  launched : List String
  final : Option (FetchState κ)

/-- The closure `_fetch` of `FetchWebsitesRss`, called on the state `st`:
it launches one request per site of `webs`, then handles the responses in
launch order. Every launched request is taken to resolve. -/
def FetchWebsitesRss_fetch {κ : Type} (env : Env) (ops : CacheOps κ)
    (transport : Nat → String → HttpExchange) (webs : List Website)
    (st : FetchState κ) : FetchRun κ :=
  { launched := launchRequests webs,
    final := handleResponses env ops transport 0 webs st }

/-- The cache-check loop of `FetchWebsitesRss`: the pair of `res` and
`websitesToFetch` after it. -/
def checkCache {κ : Type} (ops : CacheOps κ) (cache : κ) (websites : List Website) :
    List FeedFormat × List Website :=
  websites.foldl
    (fun acc web =>
      match ops.GetCacheForId cache web.Id with
      | some webCache => (acc.1 ++ [webCache], acc.2)
      | none => (acc.1, acc.2 ++ [web]))
    ([], [])

/-- Go `FetchWebsitesRss`: the cache check, then `_fetch` on the sites to
fetch. -/
def FetchWebsitesRss {κ : Type} (env : Env) (ops : CacheOps κ)
    (transport : Nat → String → HttpExchange)
    (websites : List Website) (cache : κ) : FetchRun κ :=
  let checked := checkCache ops cache websites
  let res := checked.1
  let websitesToFetch := checked.2
  FetchWebsitesRss_fetch env ops transport websitesToFetch { res := res, cache := cache }

/-! ## Vocabulary for the statements on `FetchWebsitesRss` -/

/-- The cached feeds the cache-check loop finds, in input order. -/
def cacheHits {κ : Type} (ops : CacheOps κ) (cache : κ) (websites : List Website) :
    List FeedFormat :=
  websites.filterMap (fun web => ops.GetCacheForId cache web.Id)

/-- The sites for which the cache-check loop finds no entry (the
miss-sites), in input order. -/
def cacheMisses {κ : Type} (ops : CacheOps κ) (cache : κ) (websites : List Website) :
    List Website :=
  websites.filter (fun web => (ops.GetCacheForId cache web.Id).isNone)

/-- The request with index `i`, for `web`, ends in one of the three ways
the second loop of `_fetch` handles: a transport error, or a body on which
`ParseFeed` returns (a feed or a parse error). The remaining case is a body
on which `ParseFeed` panics. -/
def siteEnds (env : Env) (transport : Nat → String → HttpExchange) (i : Nat)
    (web : Website) : Prop :=
  (fetchUrl (transport i) web.FeedLink).err ≠ none ∨
    (ParseFeed env (fetchUrl (transport i) web.FeedLink).body web).isSome = true

instance (env : Env) (transport : Nat → String → HttpExchange) (i : Nat) (web : Website) :
    Decidable (siteEnds env transport i web) :=
  inferInstanceAs (Decidable (_ ∨ _))

/-- The feed of the request with index `i`, for `web`, when the request
succeeded (nil error) and `ParseFeed` returned a feed with a nil error on
its body; `none` in every other case. -/
def acceptedFeed (env : Env) (transport : Nat → String → HttpExchange) (i : Nat)
    (web : Website) : Option FeedFormat :=
  if (fetchUrl (transport i) web.FeedLink).err = none then
    match ParseFeed env (fetchUrl (transport i) web.FeedLink).body web with
    | some (feedRes, none) => some feedRes
    | _ => none
  else none

/-- The identifier and feed of each miss-site whose fetch and parse both
succeeded, in the order of the miss-sites; the request of the miss-site at
position `k` has index `k`. -/
def acceptedWrites (env : Env) (transport : Nat → String → HttpExchange)
    (misses : List Website) : List (Int × FeedFormat) :=
  misses.enum.filterMap
    (fun p => (acceptedFeed env transport p.1 p.2).map (fun feed => (p.2.Id, feed)))

/-- Modelled from the spec: an in-memory cache store with the get-by-id and
set-by-id contract of the cache collaborator. A store lists the present,
fresh entries by identifier, and the set is an unconditional upsert. -/
def mapCache : CacheOps (List (Int × FeedFormat)) :=
  { GetCacheForId := fun cache id => (cache.find? (fun entry => entry.1 = id)).map Prod.snd,
    SetCacheForId := fun cache id feed =>
      (id, feed) :: cache.filter (fun entry => entry.1 ≠ id) }

/-! ## Sample collaborators and inputs

Concrete values at which the theorems below are evaluated. -/

/-- A raw RSS document with channel title "A" and one item titled "Hello". -/
def rssDocA : rssFormat :=
  { Channels :=
      { Title := "A", Description := "", PubDate := "",
        Items := [{ Title := "Hello", Link := "http://a/hello", Description := "",
                    PubDate := "" }] } }

/-- A raw RSS document with a channel title and no item. -/
def rssDocTitleOnly : rssFormat :=
  { Channels := { Title := "T", Description := "", PubDate := "", Items := [] } }

/-- The zero value of `rssFormat`, as a decoder leaves it when it reads
nothing into it. -/
def rssDocZero : rssFormat :=
  { Channels := { Title := "", Description := "", PubDate := "", Items := [] } }

/-- The zero value of `atomFormat`. -/
def atomDocZero : atomFormat :=
  { Title := "", Subtitle := "", Updated := "", Entries := [] }

/-- A raw Atom document with one entry that has two link elements. -/
def atomDocB : atomFormat :=
  { Title := "B", Subtitle := "", Updated := "",
    Entries := [{ Title := "World", Summary := "", Content := "text", Updated := "",
                  Links := [{ Key := "http://b/world" }, { Key := "http://b/alt" }] }] }

/-- A raw Atom document whose only entry has no link element. -/
def atomDocNoLink : atomFormat :=
  { Title := "C", Subtitle := "", Updated := "",
    Entries := [{ Title := "Lonely", Summary := "s", Content := "", Updated := "",
                  Links := [] }] }

/-- A sample XML decoder. The empty input ends both decoders with the
end-of-input error, as `xml.Unmarshal` does; the body `[1]` stands for a
serialisation of `rssDocA`, `[2]` for one of `atomDocB`, `[3]` for one of
`atomDocNoLink`, `[4]` for one of `rssDocTitleOnly`, and every other body for a well-formed XML document with
none of the elements either schema reads. Both timestamp parsers give the
zero instant. -/
def sampleEnv : Env :=
  { unmarshalRss := fun raw =>
      match raw with
      | [] => (rssDocZero, some "EOF")
      | [1] => (rssDocA, none)
      | [4] => (rssDocTitleOnly, none)
      | _ => (rssDocZero, none),
    unmarshalAtom := fun raw =>
      match raw with
      | [] => (atomDocZero, some "EOF")
      | [2] => (atomDocB, none)
      | [3] => (atomDocNoLink, none)
      | _ => (atomDocZero, none),
    parseRssTime := fun _ => 0,
    parseAtomTime := fun _ => 0 }

/-- The first site of the scenario: id 1, declared format "rss". -/
def siteA : Website :=
  { Id := 1, Description := "", FeedLink := "http://a/feed", FeedName := "",
    FeedFormat := "rss", SiteLink := "", SiteName := "a" }

/-- The second site of the scenario: id 2, declared format "atom". -/
def siteB : Website :=
  { Id := 2, Description := "", FeedLink := "http://b/feed", FeedName := "",
    FeedFormat := "atom", SiteLink := "", SiteName := "b" }

/-- A site with no declared format. -/
def siteAuto : Website :=
  { Id := 3, Description := "", FeedLink := "http://c/feed", FeedName := "",
    FeedFormat := "", SiteLink := "", SiteName := "c" }

/-- The canonical feed of `rssDocA` for `siteA`. -/
def feedA : FeedFormat :=
  { Id := 1, Title := "A", Link := "http://a/feed", Description := "", UpdateDate := 0,
    Entries := [{ Title := "Hello", Link := "http://a/hello", Description := "",
                  CreationDate := 0, UpdateDate := 0 }] }

/-- The canonical feed of `atomDocB` for `siteB`. -/
def feedB : FeedFormat :=
  { Id := 2, Title := "B", Link := "http://b/feed", Description := "", UpdateDate := 0,
    Entries := [{ Title := "World", Link := "http://b/world", Description := "text",
                  CreationDate := 0, UpdateDate := 0 }] }

/-- The transport of the scenario: the request with index 0 gets the body
`[1]`, every later request fails in `http.Get`. -/
def scenarioTransport : Nat → String → HttpExchange :=
  fun i _ =>
    if i = 0 then { getErr := none, body := [1], readErr := none }
    else { getErr := some "connection refused", body := [], readErr := none }

/-- A transport for three requests: the first fails in `http.Get`, the
second gets the body `[1]`, the third gets the empty body. -/
def isolationTransport : Nat → String → HttpExchange :=
  fun i _ =>
    if i = 0 then { getErr := some "timeout", body := [], readErr := none }
    else if i = 1 then { getErr := none, body := [1], readErr := none }
    else { getErr := none, body := [], readErr := none }

/-- A raw Atom document with two entries: the first has a summary and a
content, the second an empty summary and a content. -/
def atomDocTwo : atomFormat :=
  { Title := "D", Subtitle := "sub", Updated := "",
    Entries :=
      [{ Title := "One", Summary := "short", Content := "long", Updated := "",
         Links := [{ Key := "http://d/1" }] },
       { Title := "Two", Summary := "", Content := "body", Updated := "",
         Links := [{ Key := "http://d/2" }, { Key := "http://d/2-alt" }] }] }

/-- The canonical feed of `atomDocTwo` for `siteB`. -/
def feedTwo : FeedFormat :=
  { Id := 2, Title := "D", Link := "http://b/feed", Description := "sub", UpdateDate := 0,
    Entries :=
      [{ Title := "One", Link := "http://d/1", Description := "short",
         CreationDate := 0, UpdateDate := 0 },
       { Title := "Two", Link := "http://d/2", Description := "body",
         CreationDate := 0, UpdateDate := 0 }] }

/-- A second sample XML decoder. The body `[5]` decodes under both schemas
to a populated document; on the body `[6]` the RSS decoder stops on an error
after it filled the channel title and one item, and the Atom decoder
succeeds; on every other body both decoders fail. -/
def sampleEnv2 : Env :=
  { unmarshalRss := fun raw =>
      match raw with
      | [5] => (rssDocA, none)
      | [6] => (rssDocA, some "malformed XML")
      | _ => (rssDocZero, some "EOF"),
    unmarshalAtom := fun raw =>
      match raw with
      | [5] => (atomDocB, none)
      | [6] => (atomDocB, none)
      | _ => (atomDocZero, some "EOF"),
    parseRssTime := fun _ => 0,
    parseAtomTime := fun _ => 0 }

/-- A transport on which `http.Get` succeeds and `ioutil.ReadAll` fails
after two bytes of the body. -/
def truncatedGet : String → HttpExchange :=
  fun _ => { getErr := none, body := [60, 114], readErr := some "unexpected EOF" }

/-- A transport on which every request gets the body `[1]`. -/
def allRssTransport : Nat → String → HttpExchange :=
  fun _ _ => { getErr := none, body := [1], readErr := none }

/-- A transport on which the request with index 0 gets the body `[1]` and
every later request the body `[2]`. -/
def orderTransport : Nat → String → HttpExchange :=
  fun i _ =>
    if i = 0 then { getErr := none, body := [1], readErr := none }
    else { getErr := none, body := [2], readErr := none }

/-- The canonical feed of `atomDocB` for `siteAuto`. -/
def feedAutoB : FeedFormat :=
  { Id := 3, Title := "B", Link := "http://c/feed", Description := "", UpdateDate := 0,
    Entries := [{ Title := "World", Link := "http://b/world", Description := "text",
                  CreationDate := 0, UpdateDate := 0 }] }

/-- Modelled from the spec: the store of `mapCache` paired with the list of
the identifiers `SetCacheForId` was called with, in call order. -/
def recordingCache : CacheOps (List (Int × FeedFormat) × List Int) :=
  { GetCacheForId := fun cache id => mapCache.GetCacheForId cache.1 id,
    SetCacheForId := fun cache id feed =>
      (mapCache.SetCacheForId cache.1 id feed, cache.2 ++ [id]) }

/-- A transport on which every request gets the body `[3]`, which decodes
to the Atom document whose entry has no link element. -/
def linklessTransport : Nat → String → HttpExchange :=
  fun _ _ => { getErr := none, body := [3], readErr := none }

/-- A transport on which the request with index 0 gets the body `[1]` and
every later request the body `[3]`. -/
def panicTransport : Nat → String → HttpExchange :=
  fun i _ =>
    if i = 0 then { getErr := none, body := [1], readErr := none }
    else { getErr := none, body := [3], readErr := none }

/-- A transport on which `http.Get` succeeds and `ioutil.ReadAll` returns
the body `[1]` together with an error: the connection breaks after the last
byte of the document and before the announced end of the body. -/
def failedReadTransport : Nat → String → HttpExchange :=
  fun _ _ => { getErr := none, body := [1], readErr := some "unexpected EOF" }

/-! ## Lemmas on the normalizers -/

theorem rss_foldl_entries (env : Env) (items : List rssItem) (feed : FeedFormat) :
    items.foldl
        (fun feed item => { feed with Entries := feed.Entries ++ [rssEntry env item] })
        feed
      = { feed with Entries := feed.Entries ++ items.map (rssEntry env) } := by
  induction items generalizing feed with
  | nil => simp
  | cons item rest ih => simp [List.foldl, ih]

theorem parseRss_eq (env : Env) (rssMap : rssFormat) (web : Website) :
    parseRss env rssMap web
      = { Id := web.Id, Title := rssMap.Channels.Title, Link := web.FeedLink,
          Description := rssMap.Channels.Description,
          UpdateDate := env.parseRssTime rssMap.Channels.PubDate,
          Entries := rssMap.Channels.Items.map (rssEntry env) } := by
  simp [parseRss, rss_foldl_entries]

/-- The loop of `parseAtom` changes no field of the feed but `Entries`. -/
theorem parseAtomLoop_frame (env : Env) (entries : List atomEntry) (feed f : FeedFormat)
    (h : parseAtomLoop env entries feed = some f) :
    f.Id = feed.Id ∧ f.Title = feed.Title ∧ f.Link = feed.Link ∧
      f.Description = feed.Description ∧ f.UpdateDate = feed.UpdateDate := by
  induction entries generalizing feed with
  | nil =>
    simp only [parseAtomLoop, Option.some.injEq] at h
    subst h
    exact ⟨rfl, rfl, rfl, rfl, rfl⟩
  | cons item rest ih =>
    simp only [parseAtomLoop] at h
    cases hE : atomEntryToFeedEntry env item with
    | none => simp [hE] at h
    | some e =>
      simp only [hE] at h
      exact ih { feed with Entries := feed.Entries ++ [e] } h

/-- The loop of `parseAtom` returns a feed when every entry has a link. -/
theorem parseAtomLoop_isSome (env : Env) (entries : List atomEntry) (feed : FeedFormat)
    (h : ∀ item ∈ entries, item.Links ≠ []) :
    ∃ f, parseAtomLoop env entries feed = some f := by
  induction entries generalizing feed with
  | nil => exact ⟨feed, rfl⟩
  | cons item rest ih =>
    have hItem : item.Links ≠ [] := h item (List.mem_cons_self _ _)
    obtain ⟨link, links, hL⟩ := List.exists_cons_of_ne_nil hItem
    have hRest : ∀ it ∈ rest, it.Links ≠ [] := fun it hit =>
      h it (List.mem_cons_of_mem _ hit)
    simp only [parseAtomLoop, atomEntryToFeedEntry, hL, List.getElem?_cons_zero]
    exact ih _ hRest

/-! ## Lemmas on `ParseFeed`, branch by branch -/

theorem ParseFeed_rss (env : Env) (raw : Bytes) (web : Website)
    (hfmt : web.FeedFormat = "rss") :
    ParseFeed env raw web
      = match (env.unmarshalRss raw).2 with
        | some e => some (FeedFormat.zero, some (GoError.xml e))
        | none => some (parseRss env (env.unmarshalRss raw).1 web, none) := by
  simp only [ParseFeed, hfmt, if_true]

theorem ParseFeed_atom (env : Env) (raw : Bytes) (web : Website)
    (hfmt : web.FeedFormat = "atom") :
    ParseFeed env raw web
      = match (env.unmarshalAtom raw).2 with
        | some e => some (FeedFormat.zero, some (GoError.xml e))
        | none =>
          (parseAtom env (env.unmarshalAtom raw).1 web).map (fun feedRes => (feedRes, none)) := by
  simp only [ParseFeed, hfmt, if_true]
  rw [if_neg (by decide)]

theorem ParseFeed_auto (env : Env) (raw : Bytes) (web : Website)
    (hrss : web.FeedFormat ≠ "rss") (hatom : web.FeedFormat ≠ "atom") :
    ParseFeed env raw web
      = if rssDetected env raw then
          some (parseRss env (env.unmarshalRss raw).1 web, none)
        else if atomDetected env raw then
          (parseAtom env (env.unmarshalAtom raw).1 web).map (fun ret => (ret, none))
        else
          match (env.unmarshalRss raw).2, (env.unmarshalAtom raw).2 with
          | some e, _ => some (FeedFormat.zero, some (GoError.xml e))
          | none, some e => some (FeedFormat.zero, some (GoError.xml e))
          | none, none => some (FeedFormat.zero, some errDetect) := by
  simp only [ParseFeed, if_neg hrss, if_neg hatom, rssDetected, atomDetected]

/-! ## Claims on `format/formatting.go` -/

/-- C1: for every raw RSS document, every raw Atom document and every site
config `web`, the feed `parseRss` returns has `Link = web.FeedLink` and
`Id = web.Id`, and so has every feed `parseAtom` returns (it returns one
whenever each entry has a link element); every feed `ParseFeed` returns
with a nil error has `Link = web.FeedLink`, whatever the body holds. -/
theorem C1_feed_link_is_site_link (env : Env) (rssMap : rssFormat) (atomMap : atomFormat)
    (raw : Bytes) (web : Website) :
    ((parseRss env rssMap web).Link = web.FeedLink ∧
        (parseRss env rssMap web).Id = web.Id) ∧
      (∀ f, parseAtom env atomMap web = some f → f.Link = web.FeedLink ∧ f.Id = web.Id) ∧
      ((∀ item ∈ atomMap.Entries, item.Links ≠ []) →
        ∃ f, parseAtom env atomMap web = some f) ∧
      (∀ f, ParseFeed env raw web = some (f, none) → f.Link = web.FeedLink) := by
  have hAtom : ∀ (doc : atomFormat) (f : FeedFormat), parseAtom env doc web = some f →
      f.Link = web.FeedLink ∧ f.Id = web.Id := by
    intro doc f h
    have h2 := parseAtomLoop_frame env doc.Entries _ f h
    exact ⟨h2.2.2.1, h2.1⟩
  refine ⟨⟨by rw [parseRss_eq], by rw [parseRss_eq]⟩, hAtom atomMap, ?_, ?_⟩
  · intro h
    exact parseAtomLoop_isSome env atomMap.Entries _ h
  · intro f h
    by_cases hrss : web.FeedFormat = "rss"
    · rw [ParseFeed_rss env raw web hrss] at h
      cases hE : (env.unmarshalRss raw).2 with
      | some e => simp [hE] at h
      | none =>
        simp only [hE, Option.some.injEq, Prod.mk.injEq, and_true] at h
        rw [← h, parseRss_eq]
    · by_cases hatom : web.FeedFormat = "atom"
      · rw [ParseFeed_atom env raw web hatom] at h
        cases hE : (env.unmarshalAtom raw).2 with
        | some e => simp [hE] at h
        | none =>
          simp only [hE, Option.map_eq_some', Prod.mk.injEq, and_true] at h
          obtain ⟨g, hg, hgf⟩ := h
          subst hgf
          exact (hAtom _ g hg).1
      · rw [ParseFeed_auto env raw web hrss hatom] at h
        by_cases hR : rssDetected env raw
        · simp only [if_pos hR, Option.some.injEq, Prod.mk.injEq, and_true] at h
          rw [← h, parseRss_eq]
        · by_cases hA : atomDetected env raw
          · simp only [if_neg hR, if_pos hA, Option.map_eq_some', Prod.mk.injEq,
              and_true] at h
            obtain ⟨g, hg, hgf⟩ := h
            subst hgf
            exact (hAtom _ g hg).1
          · simp only [if_neg hR, if_neg hA] at h
            cases hE1 : (env.unmarshalRss raw).2 with
            | some e => simp [hE1] at h
            | none =>
              cases hE2 : (env.unmarshalAtom raw).2 with
              | some e => simp [hE1, hE2] at h
              | none => simp [hE1, hE2] at h

/-- Witness of C1 on the sample Atom document served for the second site. -/
theorem C1_feed_link_is_site_link_witness :
    parseAtom sampleEnv atomDocB siteB = some feedB ∧
      (feedB.Link = siteB.FeedLink ∧ feedB.Id = siteB.Id) ∧
      ParseFeed sampleEnv [2] siteB = some (feedB, none) ∧
      feedB.Link = siteB.FeedLink :=
  ⟨by decide,
   (C1_feed_link_is_site_link sampleEnv rssDocA atomDocB [2] siteB).2.1 feedB (by decide),
   by decide,
   (C1_feed_link_is_site_link sampleEnv rssDocA atomDocB [2] siteB).2.2.2 feedB
     (by decide)⟩

/-- C5: with the declared format "rss" (respectively "atom"), `ParseFeed`
returns an error exactly when unmarshalling the bytes as an RSS
(respectively Atom) document fails; on failure it returns the zero feed
with that error, whatever the other decoder would do, and on success it
returns `parseRss doc web` (respectively `parseAtom doc web`) with a nil
error. -/
theorem C5_declared_format_is_strict (env : Env) (raw : Bytes) (web : Website) :
    (web.FeedFormat = "rss" →
      (∀ e, (env.unmarshalRss raw).2 = some e →
        ParseFeed env raw web = some (FeedFormat.zero, some (GoError.xml e))) ∧
      ((env.unmarshalRss raw).2 = none →
        ParseFeed env raw web = some (parseRss env (env.unmarshalRss raw).1 web, none)) ∧
      ((∃ f e, ParseFeed env raw web = some (f, some e)) ↔
        (env.unmarshalRss raw).2 ≠ none)) ∧
    (web.FeedFormat = "atom" →
      (∀ e, (env.unmarshalAtom raw).2 = some e →
        ParseFeed env raw web = some (FeedFormat.zero, some (GoError.xml e))) ∧
      ((env.unmarshalAtom raw).2 = none →
        ParseFeed env raw web
          = (parseAtom env (env.unmarshalAtom raw).1 web).map (fun feed => (feed, none))) ∧
      ((∃ f e, ParseFeed env raw web = some (f, some e)) ↔
        (env.unmarshalAtom raw).2 ≠ none)) := by
  constructor
  · intro hfmt
    rw [ParseFeed_rss env raw web hfmt]
    cases hE : (env.unmarshalRss raw).2 with
    | some e => simp
    | none => simp
  · intro hfmt
    rw [ParseFeed_atom env raw web hfmt]
    cases hE : (env.unmarshalAtom raw).2 with
    | some e => simp
    | none => simp

/-- Witness of C5: a body that decodes as RSS for the site declared "rss",
and the empty body for the site declared "atom". -/
theorem C5_declared_format_is_strict_witness :
    ParseFeed sampleEnv [1] siteA = some (parseRss sampleEnv rssDocA siteA, none) ∧
      ParseFeed sampleEnv [] siteB = some (FeedFormat.zero, some (GoError.xml "EOF")) :=
  ⟨((C5_declared_format_is_strict sampleEnv [1] siteA).1 (by decide)).2.1 (by decide),
   ((C5_declared_format_is_strict sampleEnv [] siteB).2 (by decide)).1 "EOF" (by decide)⟩

/-- C6: with no declared format, a body whose RSS parse succeeds with a
non-empty channel title and zero items is classified as RSS: `ParseFeed`
returns `parseRss doc web` with a nil error, whatever the Atom decoder
gives. -/
theorem C6_title_alone_classifies_rss (env : Env) (raw : Bytes) (web : Website)
    (hrss : web.FeedFormat ≠ "rss") (hatom : web.FeedFormat ≠ "atom")
    (hok : (env.unmarshalRss raw).2 = none)
    (htitle : (env.unmarshalRss raw).1.Channels.Title ≠ "")
    (hitems : (env.unmarshalRss raw).1.Channels.Items = []) :
    ParseFeed env raw web = some (parseRss env (env.unmarshalRss raw).1 web, none) ∧
      (parseRss env (env.unmarshalRss raw).1 web).Entries = [] := by
  have hR : rssDetected env raw := ⟨hok, Or.inr htitle⟩
  rw [ParseFeed_auto env raw web hrss hatom, if_pos hR, parseRss_eq, hitems]
  simp

/-- Witness of C6 on the sample body with a channel title and no item. -/
theorem C6_title_alone_classifies_rss_witness :
    ParseFeed sampleEnv [4] siteAuto
        = some (parseRss sampleEnv (sampleEnv.unmarshalRss [4]).1 siteAuto, none) ∧
      (parseRss sampleEnv (sampleEnv.unmarshalRss [4]).1 siteAuto).Entries = [] :=
  C6_title_alone_classifies_rss sampleEnv [4] siteAuto (by decide) (by decide) (by decide)
    (by decide) (by decide)

/-- C7: with no declared format (or an unrecognized one), when both parses
succeed and neither document is populated (no items and an empty title in
both), `ParseFeed` returns the zero feed with the "could not detect" error:
neither the RSS nor the Atom normalization is returned. -/
theorem C7_unpopulated_is_undetected (env : Env) (raw : Bytes) (web : Website)
    (hrss : web.FeedFormat ≠ "rss") (hatom : web.FeedFormat ≠ "atom")
    (hokR : (env.unmarshalRss raw).2 = none) (hokA : (env.unmarshalAtom raw).2 = none)
    (hitems : (env.unmarshalRss raw).1.Channels.Items = [])
    (htitleR : (env.unmarshalRss raw).1.Channels.Title = "")
    (hentries : (env.unmarshalAtom raw).1.Entries = [])
    (htitleA : (env.unmarshalAtom raw).1.Title = "") :
    ParseFeed env raw web = some (FeedFormat.zero, some errDetect) := by
  have hR : ¬ rssDetected env raw := by
    simp [rssDetected, hitems, htitleR]
  have hA : ¬ atomDetected env raw := by
    simp [atomDetected, hentries, htitleA]
  rw [ParseFeed_auto env raw web hrss hatom, if_neg hR, if_neg hA, hokR, hokA]

/-- Witness of C7 on a body that is well-formed XML with no feed element. -/
theorem C7_unpopulated_is_undetected_witness :
    ParseFeed sampleEnv [7] siteAuto = some (FeedFormat.zero, some errDetect) :=
  C7_unpopulated_is_undetected sampleEnv [7] siteAuto (by decide) (by decide) (by decide)
    (by decide) (by decide) (by decide) (by decide) (by decide)

/-- C8: with no declared format, on a body classified neither as RSS nor as
Atom, `ParseFeed` returns the RSS parse error whenever the RSS parse failed
(also when the Atom parse failed too), otherwise the Atom parse error when
the Atom parse failed, and the "could not detect" error when both parses
succeeded, and only then. -/
theorem C8_error_precedence (env : Env) (raw : Bytes) (web : Website)
    (hrss : web.FeedFormat ≠ "rss") (hatom : web.FeedFormat ≠ "atom")
    (hR : ¬ rssDetected env raw) (hA : ¬ atomDetected env raw) :
    (∀ e, (env.unmarshalRss raw).2 = some e →
      ParseFeed env raw web = some (FeedFormat.zero, some (GoError.xml e))) ∧
    ((env.unmarshalRss raw).2 = none → ∀ e, (env.unmarshalAtom raw).2 = some e →
      ParseFeed env raw web = some (FeedFormat.zero, some (GoError.xml e))) ∧
    ((env.unmarshalRss raw).2 = none → (env.unmarshalAtom raw).2 = none →
      ParseFeed env raw web = some (FeedFormat.zero, some errDetect)) ∧
    ((∃ f, ParseFeed env raw web = some (f, some errDetect)) →
      (env.unmarshalRss raw).2 = none ∧ (env.unmarshalAtom raw).2 = none) := by
  rw [ParseFeed_auto env raw web hrss hatom, if_neg hR, if_neg hA]
  cases hE1 : (env.unmarshalRss raw).2 with
  | some e1 => simp [errDetect]
  | none =>
    cases hE2 : (env.unmarshalAtom raw).2 with
    | some e2 => simp [errDetect]
    | none => simp

/-- Witness of C8 on the empty body, on which both decoders fail. -/
theorem C8_error_precedence_witness :
    ParseFeed sampleEnv [] siteAuto = some (FeedFormat.zero, some (GoError.xml "EOF")) :=
  (C8_error_precedence sampleEnv [] siteAuto (by decide) (by decide) (by decide)
    (by decide)).1 "EOF" (by decide)

/-- C9 as stated fails: on the empty body with no declared format both
decoders fail, and the error `ParseFeed` returns is the RSS decoder's error,
not the "could not detect" error. -/
theorem C9_both_fail_counterexample :
    siteAuto.FeedFormat ≠ "rss" ∧ siteAuto.FeedFormat ≠ "atom" ∧
      (sampleEnv.unmarshalRss []).2 ≠ none ∧ (sampleEnv.unmarshalAtom []).2 ≠ none ∧
      ParseFeed sampleEnv [] siteAuto = some (FeedFormat.zero, some (GoError.xml "EOF")) ∧
      ParseFeed sampleEnv [] siteAuto ≠ some (FeedFormat.zero, some errDetect) := by
  decide

/-- C9 amended: with no declared format, when both the RSS parse and the
Atom parse fail, `ParseFeed` returns the zero feed with the error of the
RSS parse, which is not the "could not detect" error; the "could not detect"
error is returned exactly when both parses succeeded and neither document
is populated (no items and an empty title in both). -/
theorem C9_both_fail_gives_rss_error (env : Env) (raw : Bytes) (web : Website)
    (hrss : web.FeedFormat ≠ "rss") (hatom : web.FeedFormat ≠ "atom") :
    (∀ e : String, (env.unmarshalRss raw).2 = some e → (env.unmarshalAtom raw).2 ≠ none →
      ParseFeed env raw web = some (FeedFormat.zero, some (GoError.xml e)) ∧
        GoError.xml e ≠ errDetect) ∧
    ((∃ f, ParseFeed env raw web = some (f, some errDetect)) ↔
      ((env.unmarshalRss raw).2 = none ∧ (env.unmarshalAtom raw).2 = none ∧
        (env.unmarshalRss raw).1.Channels.Items = [] ∧
        (env.unmarshalRss raw).1.Channels.Title = "" ∧
        (env.unmarshalAtom raw).1.Entries = [] ∧
        (env.unmarshalAtom raw).1.Title = "")) := by
  have hP := ParseFeed_auto env raw web hrss hatom
  constructor
  · intro e hfailR hfailA
    have hR : ¬ rssDetected env raw := by simp [rssDetected, hfailR]
    have hA : ¬ atomDetected env raw := fun h => hfailA h.1
    rw [hP, if_neg hR, if_neg hA, hfailR]
    simp [errDetect]
  · by_cases hR : rssDetected env raw
    · rw [hP, if_pos hR]
      have hno : ¬ ((env.unmarshalRss raw).2 = none ∧ (env.unmarshalAtom raw).2 = none ∧
          (env.unmarshalRss raw).1.Channels.Items = [] ∧
          (env.unmarshalRss raw).1.Channels.Title = "" ∧
          (env.unmarshalAtom raw).1.Entries = [] ∧
          (env.unmarshalAtom raw).1.Title = "") := by
        rintro ⟨_, _, hi, ht, _, _⟩
        rcases hR.2 with h | h
        · rw [hi] at h
          simp at h
        · exact h ht
      simp [hno]
    · by_cases hA : atomDetected env raw
      · rw [hP, if_neg hR, if_pos hA]
        have hno : ¬ ((env.unmarshalRss raw).2 = none ∧ (env.unmarshalAtom raw).2 = none ∧
            (env.unmarshalRss raw).1.Channels.Items = [] ∧
            (env.unmarshalRss raw).1.Channels.Title = "" ∧
            (env.unmarshalAtom raw).1.Entries = [] ∧
            (env.unmarshalAtom raw).1.Title = "") := by
          rintro ⟨_, _, _, _, hi, ht⟩
          rcases hA.2 with h | h
          · rw [hi] at h
            simp at h
          · exact h ht
        simp [hno]
      · rw [hP, if_neg hR, if_neg hA]
        cases hE1 : (env.unmarshalRss raw).2 with
        | some e1 => simp [errDetect]
        | none =>
          cases hE2 : (env.unmarshalAtom raw).2 with
          | some e2 => simp [errDetect]
          | none =>
            have h1 : (env.unmarshalRss raw).1.Channels.Items = [] ∧
                (env.unmarshalRss raw).1.Channels.Title = "" := by
              simp only [rssDetected, hE1, true_and, not_or, not_lt, Nat.le_zero,
                List.length_eq_zero, ne_eq, not_not] at hR
              exact hR
            have h2 : (env.unmarshalAtom raw).1.Entries = [] ∧
                (env.unmarshalAtom raw).1.Title = "" := by
              simp only [atomDetected, hE2, true_and, not_or, not_lt, Nat.le_zero,
                List.length_eq_zero, ne_eq, not_not] at hA
              exact hA
            simp [h1.1, h1.2, h2.1, h2.2]

/-- Witness of the amended C9: the empty body, on which both decoders fail,
and a body on which both succeed with nothing read. -/
theorem C9_both_fail_gives_rss_error_witness :
    (ParseFeed sampleEnv [] siteAuto = some (FeedFormat.zero, some (GoError.xml "EOF")) ∧
        GoError.xml "EOF" ≠ errDetect) ∧
      ((sampleEnv.unmarshalRss [7]).2 = none ∧ (sampleEnv.unmarshalAtom [7]).2 = none ∧
        (sampleEnv.unmarshalRss [7]).1.Channels.Items = [] ∧
        (sampleEnv.unmarshalRss [7]).1.Channels.Title = "" ∧
        (sampleEnv.unmarshalAtom [7]).1.Entries = [] ∧
        (sampleEnv.unmarshalAtom [7]).1.Title = "") :=
  ⟨(C9_both_fail_gives_rss_error sampleEnv [] siteAuto (by decide) (by decide)).1 "EOF"
     (by decide) (by decide),
   (C9_both_fail_gives_rss_error sampleEnv [7] siteAuto (by decide) (by decide)).2.1
     ⟨FeedFormat.zero, by decide⟩⟩

/-- C10 at the failing input: on an Atom document whose entry has no link
element `parseAtom` returns no feed (the index `item.Links[0]` is out of
range), and so does `ParseFeed` on a body that decodes to that document,
with the declared format "atom" as with no declared format. -/
theorem C10_parseAtom_panics_without_link :
    atomDocNoLink.Entries.map (fun item => item.Links.length) = [0] ∧
      parseAtom sampleEnv atomDocNoLink siteB = none ∧
      ParseFeed sampleEnv [3] siteB = none ∧
      ParseFeed sampleEnv [3] siteAuto = none := by
  decide

/-! ## Lemmas on the loops of `FetchWebsitesRss` -/

theorem checkCache_foldl {κ : Type} (ops : CacheOps κ) (cache : κ) (websites : List Website)
    (acc : List FeedFormat × List Website) :
    websites.foldl
        (fun acc web =>
          match ops.GetCacheForId cache web.Id with
          | some webCache => (acc.1 ++ [webCache], acc.2)
          | none => (acc.1, acc.2 ++ [web]))
        acc
      = (acc.1 ++ cacheHits ops cache websites, acc.2 ++ cacheMisses ops cache websites) := by
  induction websites generalizing acc with
  | nil => simp [cacheHits, cacheMisses]
  | cons web rest ih =>
    simp only [List.foldl_cons, ih]
    cases hG : ops.GetCacheForId cache web.Id with
    | none => simp [cacheHits, cacheMisses, hG]
    | some webCache => simp [cacheHits, cacheMisses, hG]

theorem checkCache_eq {κ : Type} (ops : CacheOps κ) (cache : κ) (websites : List Website) :
    checkCache ops cache websites
      = (cacheHits ops cache websites, cacheMisses ops cache websites) := by
  simp [checkCache, checkCache_foldl]

theorem launchRequests_eq (webs : List Website) :
    launchRequests webs = webs.map (fun web => web.FeedLink) := by
  have h : ∀ (ws : List Website) (acc : List String),
      ws.foldl (fun launched web => launched ++ [web.FeedLink]) acc
        = acc ++ ws.map (fun web => web.FeedLink) := by
    intro ws
    induction ws with
    | nil => intro acc; simp
    | cons w rest ih => intro acc; simp [ih]
  simp [launchRequests, h]

theorem hits_add_misses {κ : Type} (ops : CacheOps κ) (cache : κ) (websites : List Website) :
    (cacheHits ops cache websites).length + (cacheMisses ops cache websites).length
      = websites.length := by
  induction websites with
  | nil => simp [cacheHits, cacheMisses]
  | cons web rest ih =>
    simp only [cacheHits, cacheMisses] at ih ⊢
    cases hG : ops.GetCacheForId cache web.Id with
    | none =>
      simp [List.filterMap_cons, List.filter_cons, hG]
      omega
    | some webCache =>
      simp [List.filterMap_cons, List.filter_cons, hG]
      omega

/-- One turn of the second loop of `_fetch`, by the fate of the site. -/
theorem handleResponses_cons {κ : Type} (env : Env) (ops : CacheOps κ)
    (transport : Nat → String → HttpExchange) (i : Nat) (web : Website)
    (rest : List Website) (st : FetchState κ) :
    handleResponses env ops transport i (web :: rest) st
      = if siteEnds env transport i web then
          match acceptedFeed env transport i web with
          | some feedRes =>
            handleResponses env ops transport (i + 1) rest
              { res := st.res ++ [feedRes],
                cache := ops.SetCacheForId st.cache web.Id feedRes }
          | none => handleResponses env ops transport (i + 1) rest st
        else none := by
  simp only [handleResponses, siteEnds, acceptedFeed]
  cases hE : (fetchUrl (transport i) web.FeedLink).err with
  | some e => simp
  | none =>
    cases hP : ParseFeed env (fetchUrl (transport i) web.FeedLink).body web with
    | none => simp
    | some r =>
      obtain ⟨feedRes, errParse⟩ := r
      cases errParse with
      | none => simp
      | some e => simp

/-- The writes of `acceptedWrites`, for requests numbered from `i` on. -/
theorem handleResponses_some {κ : Type} (env : Env) (ops : CacheOps κ)
    (transport : Nat → String → HttpExchange) (webs : List Website) (i : Nat)
    (st st1 : FetchState κ)
    (h : handleResponses env ops transport i webs st = some st1) :
    st1.res = st.res ++
        (webs.enumFrom i).filterMap (fun p => acceptedFeed env transport p.1 p.2) ∧
      st1.cache =
        ((webs.enumFrom i).filterMap
          (fun p => (acceptedFeed env transport p.1 p.2).map (fun feed => (p.2.Id, feed)))).foldl
          (fun c w => ops.SetCacheForId c w.1 w.2) st.cache := by
  induction webs generalizing i st with
  | nil =>
    simp only [handleResponses, Option.some.injEq] at h
    subst h
    simp
  | cons web rest ih =>
    rw [handleResponses_cons] at h
    by_cases hp : siteEnds env transport i web
    swap
    · simp [hp] at h
    · rw [if_pos hp] at h
      cases hA : acceptedFeed env transport i web with
      | none =>
        simp only [hA] at h
        have := ih (i + 1) st h
        simp [List.enumFrom_cons, List.filterMap_cons, hA, this.1, this.2]
      | some feedRes =>
        simp only [hA] at h
        have := ih (i + 1) _ h
        simp [List.enumFrom_cons, List.filterMap_cons, hA, this.1, this.2]

/-- The second loop of `_fetch` ends when every site ends. -/
theorem handleResponses_returns {κ : Type} (env : Env) (ops : CacheOps κ)
    (transport : Nat → String → HttpExchange) (webs : List Website) (i : Nat)
    (st : FetchState κ)
    (h : ∀ p ∈ webs.enumFrom i, siteEnds env transport p.1 p.2) :
    ∃ st1, handleResponses env ops transport i webs st = some st1 := by
  induction webs generalizing i st with
  | nil => exact ⟨st, rfl⟩
  | cons web rest ih =>
    have hp : siteEnds env transport i web :=
      h (i, web) (by simp [List.enumFrom_cons])
    have hrest : ∀ p ∈ rest.enumFrom (i + 1), siteEnds env transport p.1 p.2 :=
      fun p hmem => h p (by simp [List.enumFrom_cons, hmem])
    rw [handleResponses_cons, if_pos hp]
    cases hA : acceptedFeed env transport i web with
    | none => exact ih (i + 1) st hrest
    | some feedRes => exact ih (i + 1) _ hrest

/-- The state at the return of `FetchWebsitesRss`, when it returns. -/
theorem FetchWebsitesRss_final {κ : Type} (env : Env) (ops : CacheOps κ)
    (transport : Nat → String → HttpExchange) (websites : List Website) (cache : κ)
    (st1 : FetchState κ)
    (h : (FetchWebsitesRss env ops transport websites cache).final = some st1) :
    st1.res = cacheHits ops cache websites ++
        (acceptedWrites env transport (cacheMisses ops cache websites)).map Prod.snd ∧
      st1.cache =
        (acceptedWrites env transport (cacheMisses ops cache websites)).foldl
          (fun c w => ops.SetCacheForId c w.1 w.2) cache := by
  simp only [FetchWebsitesRss, FetchWebsitesRss_fetch, checkCache_eq] at h
  have := handleResponses_some env ops transport _ 0 _ st1 h
  refine ⟨?_, ?_⟩
  · rw [this.1]
    simp [acceptedWrites, List.enum, List.map_filterMap]
  · rw [this.2]
    simp [acceptedWrites, List.enum]

/-- `FetchWebsitesRss` returns when every miss-site ends. -/
theorem FetchWebsitesRss_returns {κ : Type} (env : Env) (ops : CacheOps κ)
    (transport : Nat → String → HttpExchange) (websites : List Website) (cache : κ)
    (h : ∀ p ∈ (cacheMisses ops cache websites).enum, siteEnds env transport p.1 p.2) :
    ∃ st1, (FetchWebsitesRss env ops transport websites cache).final = some st1 := by
  simp only [FetchWebsitesRss, FetchWebsitesRss_fetch, checkCache_eq]
  exact handleResponses_returns env ops transport _ 0 _ h

theorem acceptedWrites_length_le (env : Env) (transport : Nat → String → HttpExchange)
    (misses : List Website) :
    (acceptedWrites env transport misses).length ≤ misses.length := by
  unfold acceptedWrites
  calc (List.filterMap _ misses.enum).length ≤ misses.enum.length :=
        List.length_filterMap_le _ _
    _ = misses.length := List.enum_length

theorem acceptedFeed_eq_some_iff (env : Env) (transport : Nat → String → HttpExchange)
    (i : Nat) (web : Website) (feed : FeedFormat) :
    acceptedFeed env transport i web = some feed ↔
      (fetchUrl (transport i) web.FeedLink).err = none ∧
        ParseFeed env (fetchUrl (transport i) web.FeedLink).body web = some (feed, none) := by
  unfold acceptedFeed
  cases hE : (fetchUrl (transport i) web.FeedLink).err with
  | some e => simp
  | none =>
    cases hP : ParseFeed env (fetchUrl (transport i) web.FeedLink).body web with
    | none => simp
    | some r =>
      obtain ⟨feedRes, errParse⟩ := r
      cases errParse with
      | none => simp
      | some e => simp

theorem cacheHits_length {κ : Type} (ops : CacheOps κ) (cache : κ) (websites : List Website) :
    (cacheHits ops cache websites).length
      = (websites.filter (fun web => (ops.GetCacheForId cache web.Id).isSome)).length := by
  induction websites with
  | nil => simp [cacheHits]
  | cons web rest ih =>
    simp only [cacheHits] at ih ⊢
    cases hG : ops.GetCacheForId cache web.Id with
    | none => simp [List.filterMap_cons, List.filter_cons, hG, ih]
    | some webCache => simp [List.filterMap_cons, List.filter_cons, hG, ih]

theorem mem_acceptedWrites_iff (env : Env) (transport : Nat → String → HttpExchange)
    (misses : List Website) (w : Int × FeedFormat) :
    w ∈ acceptedWrites env transport misses ↔
      ∃ k web, misses[k]? = some web ∧
        (fetchUrl (transport k) web.FeedLink).err = none ∧
        ParseFeed env (fetchUrl (transport k) web.FeedLink).body web = some (w.2, none) ∧
        w.1 = web.Id := by
  obtain ⟨id, feed⟩ := w
  simp only [acceptedWrites, List.mem_filterMap, Option.map_eq_some', Prod.mk.injEq,
    Prod.exists, List.mk_mem_enum_iff_getElem?]
  constructor
  · rintro ⟨k, web, hk, g, hg, hid, hgf⟩
    subst hgf
    have := (acceptedFeed_eq_some_iff env transport k web g).1 hg
    exact ⟨k, web, hk, this.1, this.2, hid.symm⟩
  · rintro ⟨k, web, hk, hE, hP, hid⟩
    exact ⟨k, web, hk, feed,
      (acceptedFeed_eq_some_iff env transport k web feed).2 ⟨hE, hP⟩, hid.symm, rfl⟩

/-- The error of the response of `fetchUrl` is the error of `http.Get`. -/
theorem fetchUrl_err (httpGet : String → HttpExchange) (url : String) :
    (fetchUrl httpGet url).err = (httpGet url).getErr.map GoError.http := by
  unfold fetchUrl
  cases h : (httpGet url).getErr with
  | none => simp [h]
  | some e => simp [h]

/-- The requests `FetchWebsitesRss` launches: one per miss-site, chosen from
the initial cache alone, whatever the responses are. -/
theorem FetchWebsitesRss_launched {κ : Type} (env : Env) (ops : CacheOps κ)
    (transport : Nat → String → HttpExchange) (websites : List Website) (cache : κ) :
    (FetchWebsitesRss env ops transport websites cache).launched
        = (cacheMisses ops cache websites).map (fun web => web.FeedLink) ∧
      (FetchWebsitesRss env ops transport websites cache).launched.length
        = websites.length -
          (websites.filter (fun web => (ops.GetCacheForId cache web.Id).isSome)).length := by
  have hsum := hits_add_misses ops cache websites
  have hlen := cacheHits_length ops cache websites
  have hlaunched : (FetchWebsitesRss env ops transport websites cache).launched
      = (cacheMisses ops cache websites).map (fun web => web.FeedLink) := by
    simp [FetchWebsitesRss, FetchWebsitesRss_fetch, checkCache_eq, launchRequests_eq]
  refine ⟨hlaunched, ?_⟩
  rw [hlaunched, List.length_map, ← hlen]
  omega

/-- A site is accepted exactly when `http.Get` succeeded and `ParseFeed`
accepts the bytes `ioutil.ReadAll` returned; the error of `ioutil.ReadAll`
plays no part. -/
theorem acceptedFeed_transport (env : Env) (transport : Nat → String → HttpExchange)
    (i : Nat) (web : Website) (feed : FeedFormat) :
    acceptedFeed env transport i web = some feed ↔
      (transport i web.FeedLink).getErr = none ∧
        ParseFeed env (transport i web.FeedLink).body web = some (feed, none) := by
  rw [acceptedFeed_eq_some_iff, fetchUrl_err]
  cases h : (transport i web.FeedLink).getErr with
  | some e => simp
  | none => simp [fetchUrl, h]

/-- The scenario of the spec: two sites and an empty cache, the first site
answered with an RSS body titled "A" with one item "Hello", the second with
a failure of `http.Get`. The result is the one feed of the first site and
the cache ends with an entry for the identifier 1 only. -/
theorem FetchWebsitesRss_scenario :
    (FetchWebsitesRss sampleEnv mapCache scenarioTransport [siteA, siteB] []).final
        = some { res := [feedA], cache := [(1, feedA)] } ∧
      mapCache.GetCacheForId [(1, feedA)] 1 = some feedA ∧
      mapCache.GetCacheForId [(1, feedA)] 2 = none := by
  decide

/-- Three miss-sites, the first with a failure of `http.Get`, the third
with a parse error: the feed of the second is the result. -/
theorem FetchWebsitesRss_isolation_example :
    (FetchWebsitesRss sampleEnv mapCache isolationTransport [siteB, siteA, siteA] []).final
      = some { res := [feedA], cache := [(1, feedA)] } := by
  decide

/-! ## Claims on `requests/requests.go` -/

/-- C2 at the failing input: two sites, the first one cached, the request
of the second one answered with an Atom body whose entry has no link
element. One request is launched, `ParseFeed` panics on its body, and
`FetchWebsitesRss` returns nothing, the cached feed included. -/
theorem C2_no_result_on_linkless_entry :
    cacheHits mapCache [(1, feedA)] [siteA, siteB] = [feedA] ∧
      (FetchWebsitesRss sampleEnv mapCache linklessTransport [siteA, siteB]
          [(1, feedA)]).launched = ["http://b/feed"] ∧
      (fetchUrl (linklessTransport 0) "http://b/feed").err = none ∧
      ParseFeed sampleEnv (fetchUrl (linklessTransport 0) "http://b/feed").body siteB = none ∧
      (FetchWebsitesRss sampleEnv mapCache linklessTransport [siteA, siteB]
          [(1, feedA)]).final = none := by
  decide

/-- C3 at the two failing inputs. First: two miss-sites, the request of the
first one succeeds and `ParseFeed` accepts its body, the body of the second
one is an Atom document whose entry has no link element; `FetchWebsitesRss`
returns nothing, so the feed of the first site is in no result. Second: one
miss-site whose body read fails; its feed is in the result. -/
theorem C3_sibling_panic_and_failed_read :
    ((fetchUrl (panicTransport 0) siteA.FeedLink).err = none ∧
        ParseFeed sampleEnv (fetchUrl (panicTransport 0) siteA.FeedLink).body siteA
          = some (feedA, none) ∧
        ParseFeed sampleEnv (fetchUrl (panicTransport 1) siteB.FeedLink).body siteB = none ∧
        (FetchWebsitesRss sampleEnv mapCache panicTransport [siteA, siteB] []).final = none) ∧
      ((failedReadTransport 0 siteA.FeedLink).readErr = some "unexpected EOF" ∧
        (FetchWebsitesRss sampleEnv mapCache failedReadTransport [siteA] []).final
          = some { res := [feedA], cache := [(1, feedA)] }) := by
  decide

/-- C4 at the failing input: one miss-site for which `http.Get` succeeds
and reading the body fails; `fetchUrl` reports no error, `ParseFeed` accepts
the bytes read, and `SetCacheForId` is called with the identifier of the
site. -/
theorem C4_write_after_failed_read :
    (failedReadTransport 0 siteA.FeedLink).getErr = none ∧
      (failedReadTransport 0 siteA.FeedLink).readErr = some "unexpected EOF" ∧
      (fetchUrl (failedReadTransport 0) siteA.FeedLink).err = none ∧
      (FetchWebsitesRss sampleEnv recordingCache failedReadTransport [siteA]
          ([], [])).final
        = some { res := [feedA], cache := ([(1, feedA)], [1]) } := by
  decide

/-! ## Lemmas on the entries of the normalizers -/

/-- What the body of the loop of `parseAtom` appends, when it does not
panic. -/
theorem atomEntryToFeedEntry_eq_some (env : Env) (item : atomEntry) (e : feedEntry)
    (h : atomEntryToFeedEntry env item = some e) :
    ∃ link, item.Links.head? = some link ∧
      e = { Title := item.Title, Link := link.Key,
            Description := if item.Summary ≠ "" then item.Summary else item.Content,
            CreationDate := env.parseAtomTime item.Updated,
            UpdateDate := env.parseAtomTime item.Updated } := by
  unfold atomEntryToFeedEntry at h
  cases hL : item.Links with
  | nil => simp [hL] at h
  | cons link links =>
    simp only [hL, List.getElem?_cons_zero, Option.some.injEq] at h
    exact ⟨link, by simp, h.symm⟩

/-- The loop of `parseAtom` appends one entry per source entry, in order. -/
theorem parseAtomLoop_entries (env : Env) (entries : List atomEntry) (feed f : FeedFormat)
    (h : parseAtomLoop env entries feed = some f) :
    ∃ es, f.Entries = feed.Entries ++ es ∧
      List.Forall₂ (fun item e => atomEntryToFeedEntry env item = some e) entries es := by
  induction entries generalizing feed with
  | nil =>
    simp only [parseAtomLoop, Option.some.injEq] at h
    subst h
    exact ⟨[], by simp, List.Forall₂.nil⟩
  | cons item rest ih =>
    simp only [parseAtomLoop] at h
    cases hE : atomEntryToFeedEntry env item with
    | none => simp [hE] at h
    | some e =>
      simp only [hE] at h
      obtain ⟨es, hes, hall⟩ := ih { feed with Entries := feed.Entries ++ [e] } h
      exact ⟨e :: es, by simp [hes], List.Forall₂.cons hE hall⟩

theorem parseAtom_entries (env : Env) (atomMap : atomFormat) (web : Website) (f : FeedFormat)
    (h : parseAtom env atomMap web = some f) :
    List.Forall₂ (fun item e => atomEntryToFeedEntry env item = some e)
      atomMap.Entries f.Entries := by
  obtain ⟨es, hes, hall⟩ := parseAtomLoop_entries env atomMap.Entries _ f h
  simp only [List.nil_append] at hes
  rw [hes]
  exact hall

/-- Two lists related entry by entry are related at every index. -/
theorem forall₂_getElem? {α β : Type} (R : α → β → Prop) (xs : List α) (ys : List β)
    (h : List.Forall₂ R xs ys) (i : Nat) (x : α) (y : β)
    (hx : xs[i]? = some x) (hy : ys[i]? = some y) : R x y := by
  induction h generalizing i with
  | nil => simp at hx
  | cons hR _ ih =>
    cases i with
    | zero =>
      simp only [List.getElem?_cons_zero, Option.some.injEq] at hx hy
      subst hx
      subst hy
      exact hR
    | succ j =>
      simp only [List.getElem?_cons_succ] at hx hy
      exact ih j hx hy

theorem parseAtom_isSome (env : Env) (atomMap : atomFormat) (web : Website)
    (h : ∀ item ∈ atomMap.Entries, item.Links ≠ []) :
    ∃ f, parseAtom env atomMap web = some f :=
  parseAtomLoop_isSome env atomMap.Entries _ h

/-! ## Claims on the normalizers -/

/-- C11: for every raw Atom document, each entry of the result of
`parseAtom` has `Description` equal to the summary of the source entry at
the same position when that summary is non-empty, and equal to its content
otherwise; the result has one entry per source entry, and there is a result
whenever every entry has a link element. -/
theorem C11_atom_description (env : Env) (atomMap : atomFormat) (web : Website) :
    (∀ f, parseAtom env atomMap web = some f →
      f.Entries.length = atomMap.Entries.length ∧
      ∀ (i : Nat) (item : atomEntry) (e : feedEntry), atomMap.Entries[i]? = some item → f.Entries[i]? = some e →
        (item.Summary ≠ "" → e.Description = item.Summary) ∧
        (item.Summary = "" → e.Description = item.Content)) ∧
    ((∀ item ∈ atomMap.Entries, item.Links ≠ []) →
      ∃ f, parseAtom env atomMap web = some f) := by
  refine ⟨?_, parseAtom_isSome env atomMap web⟩
  intro f h
  have hall := parseAtom_entries env atomMap web f h
  refine ⟨hall.length_eq.symm, ?_⟩
  intro i item e hi he
  have hR := forall₂_getElem? _ _ _ hall i item e hi he
  obtain ⟨link, _, hEq⟩ := atomEntryToFeedEntry_eq_some env item e hR
  subst hEq
  constructor
  · intro hs
    simp [hs]
  · intro hs
    simp [hs]

/-- Witness of C11, one case of each: an entry with a summary and an entry
with an empty summary and a content. -/
theorem C11_atom_description_witness :
    parseAtom sampleEnv atomDocTwo siteB = some feedTwo ∧
      feedTwo.Entries.map (fun e => e.Description) = ["short", "body"] ∧
      (feedTwo.Entries.length = atomDocTwo.Entries.length ∧
        ∀ (i : Nat) (item : atomEntry) (e : feedEntry), atomDocTwo.Entries[i]? = some item → feedTwo.Entries[i]? = some e →
          (item.Summary ≠ "" → e.Description = item.Summary) ∧
          (item.Summary = "" → e.Description = item.Content)) :=
  ⟨by decide, by decide,
   (C11_atom_description sampleEnv atomDocTwo siteB).1 feedTwo (by decide)⟩

/-- C12: for every raw Atom document in which every entry has at least one
link element, `parseAtom` returns a feed, and each of its entries has `Link`
equal to the address of the first link element of the source entry at the
same position, whatever links follow it. -/
theorem C12_atom_first_link (env : Env) (atomMap : atomFormat) (web : Website)
    (hlinks : ∀ item ∈ atomMap.Entries, item.Links ≠ []) :
    ∃ f, parseAtom env atomMap web = some f ∧
      f.Entries.length = atomMap.Entries.length ∧
      ∀ (i : Nat) (item : atomEntry) (e : feedEntry) (link : atomLink), atomMap.Entries[i]? = some item → f.Entries[i]? = some e →
        item.Links.head? = some link → e.Link = link.Key := by
  obtain ⟨f, h⟩ := parseAtom_isSome env atomMap web hlinks
  have hall := parseAtom_entries env atomMap web f h
  refine ⟨f, h, hall.length_eq.symm, ?_⟩
  intro i item e link hi he hhead
  have hR := forall₂_getElem? _ _ _ hall i item e hi he
  obtain ⟨link1, hhead1, hEq⟩ := atomEntryToFeedEntry_eq_some env item e hR
  rw [hhead] at hhead1
  simp only [Option.some.injEq] at hhead1
  subst hEq
  rw [hhead1]

/-- Witness of C12 on a document whose second entry has two links. -/
theorem C12_atom_first_link_witness :
    feedTwo.Entries.map (fun e => e.Link) = ["http://d/1", "http://d/2"] ∧
      parseAtom sampleEnv atomDocTwo siteB = some feedTwo ∧
      ∃ f, parseAtom sampleEnv atomDocTwo siteB = some f ∧
        f.Entries.length = atomDocTwo.Entries.length ∧
        ∀ (i : Nat) (item : atomEntry) (e : feedEntry) (link : atomLink), atomDocTwo.Entries[i]? = some item → f.Entries[i]? = some e →
          item.Links.head? = some link → e.Link = link.Key :=
  ⟨by decide, by decide, C12_atom_first_link sampleEnv atomDocTwo siteB (by decide)⟩

/-- C13: for every raw RSS document, the feed `parseRss` returns has one
entry per item, the entry at each position carrying the title, link and
description of the item at that position, so that no item is dropped,
merged or reordered; hence `ParseFeed` with the declared format "rss", on a
body that decodes, returns a feed with as many entries as the document has
items. -/
theorem C13_rss_entries_follow_items (env : Env) (rssMap : rssFormat) (web : Website)
    (raw : Bytes) :
    (parseRss env rssMap web).Entries.length = rssMap.Channels.Items.length ∧
      (parseRss env rssMap web).Entries.map (fun e => (e.Title, e.Link, e.Description))
        = rssMap.Channels.Items.map
            (fun item => (item.Title, item.Link, item.Description)) ∧
      (∀ (i : Nat) (item : rssItem), rssMap.Channels.Items[i]? = some item →
        ∃ e, (parseRss env rssMap web).Entries[i]? = some e ∧
          e.Title = item.Title ∧ e.Link = item.Link ∧
          e.Description = item.Description) ∧
      (web.FeedFormat = "rss" → (env.unmarshalRss raw).2 = none →
        ∃ f, ParseFeed env raw web = some (f, none) ∧
          f.Entries.length = (env.unmarshalRss raw).1.Channels.Items.length) := by
  refine ⟨by simp [parseRss_eq], by simp [parseRss_eq, rssEntry], ?_, ?_⟩
  · intro i item hi
    refine ⟨rssEntry env item, ?_, rfl, rfl, rfl⟩
    simp [parseRss_eq, List.getElem?_map, hi]
  · intro hfmt hok
    refine ⟨parseRss env (env.unmarshalRss raw).1 web, ?_, by simp [parseRss_eq]⟩
    rw [ParseFeed_rss env raw web hfmt, hok]

/-- Witness of C13 on the sample RSS body for the site declared "rss". -/
theorem C13_rss_entries_follow_items_witness :
    ParseFeed sampleEnv [1] siteA = some (feedA, none) ∧
      feedA.Entries.length = rssDocA.Channels.Items.length ∧
      ∃ f, ParseFeed sampleEnv [1] siteA = some (f, none) ∧
        f.Entries.length = (sampleEnv.unmarshalRss [1]).1.Channels.Items.length :=
  ⟨by decide, by decide,
   (C13_rss_entries_follow_items sampleEnv rssDocA siteA [1]).2.2.2 (by decide)
     (by decide)⟩

/-- C14: in every feed produced by `parseRss` or by `parseAtom`, every entry
has `CreationDate` equal to `UpdateDate`. -/
theorem C14_entry_dates_coincide (env : Env) (rssMap : rssFormat) (atomMap : atomFormat)
    (web : Website) :
    (∀ e ∈ (parseRss env rssMap web).Entries, e.CreationDate = e.UpdateDate) ∧
      (∀ f, parseAtom env atomMap web = some f →
        ∀ e ∈ f.Entries, e.CreationDate = e.UpdateDate) := by
  constructor
  · intro e he
    rw [parseRss_eq] at he
    simp only [List.mem_map] at he
    obtain ⟨item, _, hEq⟩ := he
    subst hEq
    rfl
  · intro f h e he
    have hall := parseAtom_entries env atomMap web f h
    obtain ⟨i, hi⟩ := List.getElem?_of_mem he
    have hlt : i < atomMap.Entries.length := by
      have := (List.getElem?_eq_some.1 hi).1
      rw [hall.length_eq]
      exact this
    have hitem : atomMap.Entries[i]? = some (atomMap.Entries[i]) :=
      List.getElem?_eq_getElem hlt
    have hR := forall₂_getElem? _ _ _ hall i _ e hitem hi
    obtain ⟨link, _, hEq⟩ := atomEntryToFeedEntry_eq_some env _ e hR
    subst hEq
    rfl

/-- Witness of C14 on the sample Atom document with two entries. -/
theorem C14_entry_dates_coincide_witness :
    parseAtom sampleEnv atomDocTwo siteB = some feedTwo ∧
      ∀ e ∈ feedTwo.Entries, e.CreationDate = e.UpdateDate :=
  ⟨by decide,
   (C14_entry_dates_coincide sampleEnv rssDocA atomDocTwo siteB).2 feedTwo (by decide)⟩

/-! ## Claims on the autodetection -/

theorem AutoDetectFeedFormat_eq (env : Env) (raw : Bytes) :
    AutoDetectFeedFormat env raw
      = if rssDetected env raw then ("rss", none)
        else if atomDetected env raw then ("atom", none)
        else
          match (env.unmarshalRss raw).2, (env.unmarshalAtom raw).2 with
          | some e, _ => ("", some (GoError.xml e))
          | none, some e => ("", some (GoError.xml e))
          | none, none => ("", some errDetect) := by
  simp only [AutoDetectFeedFormat, rssDetected, atomDetected]

/-- The error of the last part of the autodetection branch. -/
theorem ParseFeed_auto_error (env : Env) (raw : Bytes) (web : Website)
    (hrss : web.FeedFormat ≠ "rss") (hatom : web.FeedFormat ≠ "atom")
    (hR : ¬ rssDetected env raw) (hA : ¬ atomDetected env raw) :
    ∃ e, ParseFeed env raw web = some (FeedFormat.zero, some e) ∧
      AutoDetectFeedFormat env raw = ("", some e) := by
  rw [ParseFeed_auto env raw web hrss hatom, AutoDetectFeedFormat_eq, if_neg hR, if_neg hA,
    if_neg hR, if_neg hA]
  cases hE1 : (env.unmarshalRss raw).2 with
  | some e1 => exact ⟨_, rfl, rfl⟩
  | none =>
    cases hE2 : (env.unmarshalAtom raw).2 with
    | some e2 => exact ⟨_, rfl, rfl⟩
    | none => exact ⟨_, rfl, rfl⟩

/-- C15: with no declared format, `ParseFeed` returns the Atom
normalization when the RSS condition fails (the RSS parse failed, or it
succeeded with no items and an empty channel title) and the Atom parse
succeeded with a non-empty entry list or a non-empty title, and in no other
case: when the RSS condition holds it returns the RSS normalization, also
when the Atom document is populated too, and when both conditions fail it
returns the zero feed with an error. A failed RSS parse never makes the RSS
condition hold, whatever the partly filled RSS document contains. -/
theorem C15_atom_classification (env : Env) (raw : Bytes) (web : Website)
    (hrss : web.FeedFormat ≠ "rss") (hatom : web.FeedFormat ≠ "atom") :
    (rssDetected env raw ↔
      (env.unmarshalRss raw).2 = none ∧
        ((env.unmarshalRss raw).1.Channels.Items ≠ [] ∨
          (env.unmarshalRss raw).1.Channels.Title ≠ "")) ∧
    (atomDetected env raw ↔
      (env.unmarshalAtom raw).2 = none ∧
        ((env.unmarshalAtom raw).1.Entries ≠ [] ∨ (env.unmarshalAtom raw).1.Title ≠ "")) ∧
    (¬ rssDetected env raw → atomDetected env raw →
      ParseFeed env raw web
        = (parseAtom env (env.unmarshalAtom raw).1 web).map (fun feed => (feed, none))) ∧
    (rssDetected env raw →
      ParseFeed env raw web = some (parseRss env (env.unmarshalRss raw).1 web, none)) ∧
    (¬ rssDetected env raw → ¬ atomDetected env raw →
      ∃ e, ParseFeed env raw web = some (FeedFormat.zero, some e)) ∧
    ((env.unmarshalRss raw).2 ≠ none → ¬ rssDetected env raw) := by
  refine ⟨?_, ?_, ?_, ?_, ?_, ?_⟩
  · simp [rssDetected, List.length_pos]
  · simp [atomDetected, List.length_pos]
  · intro hR hA
    rw [ParseFeed_auto env raw web hrss hatom, if_neg hR, if_pos hA]
  · intro hR
    rw [ParseFeed_auto env raw web hrss hatom, if_pos hR]
  · intro hR hA
    obtain ⟨e, he, _⟩ := ParseFeed_auto_error env raw web hrss hatom hR hA
    exact ⟨e, he⟩
  · intro hfail hR
    exact hfail hR.1

/-- Witness of C15: on the body `[6]` the RSS decoder fails after filling a
title and an item, and the Atom normalization is returned. -/
theorem C15_atom_classification_witness :
    (sampleEnv2.unmarshalRss [6]).1.Channels.Title = "A" ∧
      (sampleEnv2.unmarshalRss [6]).2 = some "malformed XML" ∧
      ParseFeed sampleEnv2 [6] siteAuto
        = (parseAtom sampleEnv2 (sampleEnv2.unmarshalAtom [6]).1 siteAuto).map
            (fun feed => (feed, none)) ∧
      ParseFeed sampleEnv2 [5] siteAuto
        = some (parseRss sampleEnv2 (sampleEnv2.unmarshalRss [5]).1 siteAuto, none) :=
  ⟨by decide, by decide,
   (C15_atom_classification sampleEnv2 [6] siteAuto (by decide) (by decide)).2.2.1
     (by decide) (by decide),
   (C15_atom_classification sampleEnv2 [5] siteAuto (by decide) (by decide)).2.2.2.1
     (by decide)⟩

/-- The normalizers read only `Id` and `FeedLink` of the site config. -/
theorem parseRss_format_irrelevant (env : Env) (rssMap : rssFormat) (web : Website)
    (fmt : String) :
    parseRss env rssMap { web with FeedFormat := fmt } = parseRss env rssMap web := by
  simp [parseRss_eq]

theorem parseAtom_format_irrelevant (env : Env) (atomMap : atomFormat) (web : Website)
    (fmt : String) :
    parseAtom env atomMap { web with FeedFormat := fmt } = parseAtom env atomMap web := by
  simp [parseAtom]

/-- C18: for every body and every site config whose format is neither "rss"
nor "atom", `AutoDetectFeedFormat` and the autodetection branch of
`ParseFeed` decide alike. `AutoDetectFeedFormat` returns "rss" exactly under
the condition of the RSS test and "atom" exactly under the condition of the
Atom test after a failed RSS test; in the first case `ParseFeed` returns the
RSS normalization, in the second the Atom normalization; `ParseFeed` returns
an error exactly when `AutoDetectFeedFormat` does, and the same one; and
when `AutoDetectFeedFormat` succeeds with the format `f`, `ParseFeed` gives
the same result for the site config with `FeedFormat` set to `f`. -/
theorem C18_autodetect_agrees (env : Env) (raw : Bytes) (web : Website)
    (hrss : web.FeedFormat ≠ "rss") (hatom : web.FeedFormat ≠ "atom") :
    (AutoDetectFeedFormat env raw = ("rss", none) ↔ rssDetected env raw) ∧
    (AutoDetectFeedFormat env raw = ("atom", none) ↔
      ¬ rssDetected env raw ∧ atomDetected env raw) ∧
    (AutoDetectFeedFormat env raw = ("rss", none) →
      ParseFeed env raw web = some (parseRss env (env.unmarshalRss raw).1 web, none)) ∧
    (AutoDetectFeedFormat env raw = ("atom", none) →
      ParseFeed env raw web
        = (parseAtom env (env.unmarshalAtom raw).1 web).map (fun feed => (feed, none))) ∧
    (∀ e : GoError, (∃ f, ParseFeed env raw web = some (f, some e)) ↔
      (AutoDetectFeedFormat env raw).2 = some e) ∧
    (∀ e : GoError, (AutoDetectFeedFormat env raw).2 = some e →
      ParseFeed env raw web = some (FeedFormat.zero, some e) ∧
        (AutoDetectFeedFormat env raw).1 = "") ∧
    (∀ f : String, AutoDetectFeedFormat env raw = (f, none) →
      (f = "rss" ∨ f = "atom") ∧
        ParseFeed env raw web = ParseFeed env raw { web with FeedFormat := f }) := by
  have hP := ParseFeed_auto env raw web hrss hatom
  have hD := AutoDetectFeedFormat_eq env raw
  by_cases hR : rssDetected env raw
  · rw [if_pos hR] at hP hD
    have hPrss : ParseFeed env raw { web with FeedFormat := "rss" }
        = some (parseRss env (env.unmarshalRss raw).1 web, none) := by
      rw [ParseFeed_rss env raw _ rfl, hR.1, parseRss_format_irrelevant]
    refine ⟨by simp [hD, hR], by simp [hD, hR], fun _ => hP, by simp [hD], ?_, ?_, ?_⟩
    · intro e
      simp [hD, hP]
    · intro e
      simp [hD]
    · intro f hf
      rw [hD] at hf
      simp only [Prod.mk.injEq, and_true] at hf
      subst hf
      exact ⟨Or.inl rfl, by rw [hP, hPrss]⟩
  · by_cases hA : atomDetected env raw
    · rw [if_neg hR, if_pos hA] at hP hD
      have hPatom : ParseFeed env raw { web with FeedFormat := "atom" }
          = (parseAtom env (env.unmarshalAtom raw).1 web).map (fun feed => (feed, none)) := by
        rw [ParseFeed_atom env raw _ rfl, hA.1, parseAtom_format_irrelevant]
      refine ⟨by simp [hD, hR], by simp [hD, hR, hA], by simp [hD], fun _ => hP, ?_, ?_, ?_⟩
      · intro e
        simp [hD, hP]
      · intro e
        simp [hD]
      · intro f hf
        rw [hD] at hf
        simp only [Prod.mk.injEq, and_true] at hf
        subst hf
        exact ⟨Or.inr rfl, by rw [hP, hPatom]⟩
    · obtain ⟨e0, hPe, hDe⟩ := ParseFeed_auto_error env raw web hrss hatom hR hA
      refine ⟨by simp [hDe, hR], by simp [hDe, hR, hA], by simp [hDe], by simp [hDe],
        ?_, ?_, ?_⟩
      · intro e
        simp [hDe, hPe]
      · intro e he
        rw [hDe] at he
        simp only [Option.some.injEq] at he
        subst he
        exact ⟨hPe, by rw [hDe]⟩
      · intro f hf
        rw [hDe] at hf
        simp at hf

/-- Witness of C18 on the sample Atom body for a site with no declared
format. -/
theorem C18_autodetect_agrees_witness :
    AutoDetectFeedFormat sampleEnv [2] = ("atom", none) ∧
      ParseFeed sampleEnv [2] siteAuto
        = ParseFeed sampleEnv [2] { siteAuto with FeedFormat := "atom" } ∧
      ParseFeed sampleEnv [2] siteAuto
        = (parseAtom sampleEnv (sampleEnv.unmarshalAtom [2]).1 siteAuto).map
            (fun feed => (feed, none)) :=
  ⟨by decide,
   ((C18_autodetect_agrees sampleEnv [2] siteAuto (by decide) (by decide)).2.2.2.2.2.2
      "atom" (by decide)).2,
   (C18_autodetect_agrees sampleEnv [2] siteAuto (by decide) (by decide)).2.2.2.1
     (by decide)⟩

/-! ## Further claims on `requests/requests.go` -/

/-- C16 at the failing input: `http.Get` succeeds and reading the body
fails after two bytes; the response `fetchUrl` sends has a nil error and
the two bytes as its body. -/
theorem C16_fetchUrl_drops_read_error :
    (truncatedGet "http://a/feed").getErr = none ∧
      (truncatedGet "http://a/feed").readErr = some "unexpected EOF" ∧
      fetchUrl truncatedGet "http://a/feed" = { err := none, body := [60, 114] } := by
  decide

/-- The identifiers of the writes are a sublist of the identifiers of the
sites. -/
theorem acceptedWrites_ids_sublist (env : Env) (transport : Nat → String → HttpExchange)
    (misses : List Website) (n : Nat) :
    List.Sublist
      (((misses.enumFrom n).filterMap
        (fun p => (acceptedFeed env transport p.1 p.2).map
          (fun feed => (p.2.Id, feed)))).map Prod.fst)
      (misses.map (fun web => web.Id)) := by
  induction misses generalizing n with
  | nil => simp
  | cons web rest ih =>
    simp only [List.enumFrom_cons, List.filterMap_cons, List.map_cons]
    cases hA : acceptedFeed env transport n web with
    | none =>
      simp only [Option.map_none']
      exact List.Sublist.cons _ (ih (n + 1))
    | some feed =>
      simp only [Option.map_some', List.map_cons]
      exact List.Sublist.cons₂ _ (ih (n + 1))

/-- C17 as stated fails: with the same site listed twice, an empty cache
and both requests answered with an RSS body, `FetchWebsitesRss` calls
`SetCacheForId` twice with the identifier 1. -/
theorem C17_repeated_site_counterexample :
    (FetchWebsitesRss sampleEnv recordingCache allRssTransport [siteA, siteA]
        ([], [])).final
        = some { res := [feedA, feedA], cache := ([(1, feedA)], [1, 1]) } ∧
      (acceptedWrites sampleEnv allRssTransport
          (cacheMisses recordingCache ([], []) [siteA, siteA])).map Prod.fst = [1, 1] ∧
      ¬ ([1, 1] : List Int).Nodup := by
  decide

/-- C17 amended: when the sites of the input list have pairwise distinct
identifiers, the cache writes of one `FetchWebsitesRss` call, which are the
writes of `acceptedWrites` on the miss-sites, target pairwise distinct
identifiers. -/
theorem C17_distinct_sites_distinct_writes {κ : Type} (env : Env) (ops : CacheOps κ)
    (transport : Nat → String → HttpExchange) (websites : List Website) (cache : κ)
    (hids : (websites.map (fun web => web.Id)).Nodup) :
    ((acceptedWrites env transport (cacheMisses ops cache websites)).map Prod.fst).Nodup ∧
      (∀ st1, (FetchWebsitesRss env ops transport websites cache).final = some st1 →
        st1.cache =
          (acceptedWrites env transport (cacheMisses ops cache websites)).foldl
            (fun c w => ops.SetCacheForId c w.1 w.2) cache) := by
  constructor
  · have h1 := acceptedWrites_ids_sublist env transport (cacheMisses ops cache websites) 0
    have h2 : List.Sublist ((cacheMisses ops cache websites).map (fun web => web.Id))
        (websites.map (fun web => web.Id)) :=
      List.Sublist.map _ (List.filter_sublist _)
    exact List.Nodup.sublist (h1.trans h2) hids
  · intro st1 hst
    exact (FetchWebsitesRss_final env ops transport websites cache st1 hst).2

/-- Witness of the amended C17 on two sites with the identifiers 1 and 3,
both answered with a body that parses. -/
theorem C17_distinct_sites_distinct_writes_witness :
    (FetchWebsitesRss sampleEnv recordingCache orderTransport [siteA, siteAuto]
        ([], [])).final
        = some { res := [feedA, feedAutoB],
                 cache := ([(3, feedAutoB), (1, feedA)], [1, 3]) } ∧
      ((acceptedWrites sampleEnv orderTransport
          (cacheMisses recordingCache ([], []) [siteA, siteAuto])).map Prod.fst).Nodup :=
  ⟨by decide,
   (C17_distinct_sites_distinct_writes sampleEnv recordingCache orderTransport
      [siteA, siteAuto] ([], []) (by decide)).1⟩

/-- C19: when every miss-site ends in a transport error, a parse error or
an accepted feed, `FetchWebsitesRss` returns, and its result is first the
cached feeds of the cache-hit sites in input order, then the parsed feeds of
the accepted miss-sites in input order; the feed of the miss-site at
position `k` is the one parsed from the response of the request with index
`k`, read from its own channel. -/
theorem C19_result_order {κ : Type} (env : Env) (ops : CacheOps κ)
    (transport : Nat → String → HttpExchange) (websites : List Website) (cache : κ)
    (hends : ∀ p ∈ (cacheMisses ops cache websites).enum, siteEnds env transport p.1 p.2) :
    ∃ st1, (FetchWebsitesRss env ops transport websites cache).final = some st1 ∧
      st1.res
        = websites.filterMap (fun web => ops.GetCacheForId cache web.Id) ++
          ((websites.filter (fun web => (ops.GetCacheForId cache web.Id).isNone)).enum).filterMap
            (fun p => acceptedFeed env transport p.1 p.2) := by
  obtain ⟨st1, hst⟩ := FetchWebsitesRss_returns env ops transport websites cache hends
  have hfin := FetchWebsitesRss_final env ops transport websites cache st1 hst
  refine ⟨st1, hst, ?_⟩
  rw [hfin.1]
  simp [acceptedWrites, cacheHits, cacheMisses, List.map_filterMap]

/-- Witness of C19: three sites, the second one cached; the cached feed
comes first, then the feeds of the first and third sites. -/
theorem C19_result_order_witness :
    (FetchWebsitesRss sampleEnv mapCache orderTransport [siteA, siteB, siteAuto]
        [(2, feedB)]).final
        = some { res := [feedB, feedA, feedAutoB],
                 cache := [(3, feedAutoB), (1, feedA), (2, feedB)] } ∧
      ∃ st1,
        (FetchWebsitesRss sampleEnv mapCache orderTransport [siteA, siteB, siteAuto]
            [(2, feedB)]).final = some st1 ∧
        st1.res
          = [siteA, siteB, siteAuto].filterMap
              (fun web => mapCache.GetCacheForId [(2, feedB)] web.Id) ++
            (([siteA, siteB, siteAuto].filter
                (fun web => (mapCache.GetCacheForId [(2, feedB)] web.Id).isNone)).enum).filterMap
              (fun p => acceptedFeed sampleEnv orderTransport p.1 p.2) :=
  ⟨by decide,
   C19_result_order sampleEnv mapCache orderTransport [siteA, siteB, siteAuto] [(2, feedB)]
     (by decide)⟩

end OscarGoGo
